import Mathlib

/-!
Verification of the PN532 driver (`nfc/clf/pn532.py`): a shallow embedding of
the chipset command encoders and of the Type 1 Tag bit-banged command path,
with the specification's claims settled as theorems.

Conventions: Python byte strings and bytearrays are `List Nat` with every
element below 256; machine integers are `Nat`; Python exceptions become the
`Err` type through `Except`; the chipset operations a method issues are
collected as a `List ChipOp` trace (an empty trace means nothing reached the
chip).
-/

namespace Pn532

/-- Python exceptions raised by the embedded code paths. `notImplementedError`
models `NotImplementedError` (the spec's unsupported-operation failure),
`timeoutError` models `nfc.clf.TimeoutError`, `transmissionError` models
`nfc.clf.TransmissionError`, `valueError` the `ValueError` of `tuple.index`,
`assertionError` a failed `assert`, and `typeError` / `indexError` the Python
`TypeError` / `IndexError`. -/
inductive Err
  | timeoutError
  | transmissionError
  | typeError
  | indexError
  | valueError
  | assertionError
  | notImplementedError
  deriving DecidableEq

deriving instance DecidableEq for Except

/-- One operation issued to the chipset by the driver: a firmware
`InDataExchange` command (`in_data_exchange`), a batched register write
(`write_register`, a list of (register name, value) pairs), or a batched
register read (`read_register`, a list of register names). -/
inductive ChipOp
  | inDataExchange (data : List Nat)
  | writeRegister (pairs : List (String × Nat))
  | readRegister (regs : List String)
  deriving DecidableEq

/-- Value of a bit list given least-significant-bit first, the reading both
`int(s[::-1], 2)` on line 324 of the source and the FIFO shift order use. -/
def bitsVal (l : List Nat) : Nat := l.foldr (fun b acc => b + 2 * acc) 0

/-- The 8 bits of an octet, least significant first: the source's
`"{:08b}".format(octet)[::-1]` (line 323) as a list of 0/1 values. -/
def octetBitsRev (b : Nat) : List Nat :=
  [b % 2, b / 2 % 2, b / 4 % 2, b / 8 % 2, b / 16 % 2,
   b / 32 % 2, b / 64 % 2, b / 128 % 2]

/-- Line 324 of the source:
`[int(data[i:i+8][::-1], 2) for i in range(0, len(data)-8, 9)]`.
The index `i` runs over multiples of 9 while at least 9 bits remain
(`i < len - 8`), each step keeps the first 8 of the 9 bits (the 9th is the
parity bit) and reads them least-significant-bit first; a final group of
fewer than 9 bits is dropped. -/
def regroup9 : List Nat → List Nat
  | b0 :: b1 :: b2 :: b3 :: b4 :: b5 :: b6 :: b7 :: _ :: rest =>
      bitsVal [b0, b1, b2, b3, b4, b5, b6, b7] :: regroup9 rest
  | _ => []

/-- Lines 323-324 of the source: expand every FIFO octet to its 8 bits in
shift order, concatenate, and regroup the 9-bit runs into data bytes. -/
def tt1_reconstruct (fifo : List Nat) : List Nat :=
  regroup9 ((fifo.map octetBitsRev).flatten)

/-- Modelled from the spec: the base layer's shared 16-bit checksum primitive
(spec section 6, `add_checksum` / `verify_checksum`), whose implementation is
in the base `pn53x` layer outside `src/`. It is the CRC_B of ISO/IEC
14443-3: initial value 0xFFFF, reflected polynomial 0x8408 applied bit by
bit to each octet, final one's complement of the low 16 bits, output little
endian as two bytes. -/
def crc_b (data : List Nat) : List Nat :=
  let crc := data.foldl
    (fun crc octet =>
      (List.range 8).foldl
        (fun c _ => if c % 2 = 1 then (c / 2) ^^^ 0x8408 else c / 2)
        (crc ^^^ octet))
    0xFFFF
  let fin := 0xFFFF ^^^ (crc % 0x10000)
  [fin % 256, fin / 256]

/-- Modelled from the spec: the base layer's `add_checksum` (spec section 6,
"Append a checksum (16-bit, specific polynomial shared with the base layer)
to the command bytes", section 4.5 step 1) — the data followed by its two
checksum bytes. -/
def add_crc_b (data : List Nat) : List Nat := data ++ crc_b data

/-- Modelled from the spec: the base layer's `verify_checksum` (spec sections
4.5 step 7 and 6) — "Validate the trailing two reconstructed bytes as the
checksum over the preceding bytes". Python's `data[0:-2]` is `take (n-2)`
and `data[-2:]` is `drop (n-2)`. -/
def check_crc_b (data : List Nat) : Bool :=
  crc_b (data.take (data.length - 2)) == data.drop (data.length - 2)

/-- Lines 323-327 of the source: given the bytes read from the FIFO,
reconstruct the 9-bit-packed data, fail with a `TransmissionError` if the
trailing checksum does not verify, and otherwise return the reconstructed
bytes minus the trailing two checksum bytes (`data[0:-2]`). -/
def tt1_decode (fifo : List Nat) : Except Err (List Nat) :=
  let data := tt1_reconstruct fifo
  if check_crc_b data = false then Except.error Err.transmissionError
  else Except.ok (data.take (data.length - 2))

/-- The loop of lines 309-312 of the source: for each remaining byte, a FIFO
write, a Transmit command, and a NoCmdChange marker. -/
def tt1LoopWrites : List Nat → List (String × Nat)
  | [] => []
  | b :: rest =>
      ("CIU_FIFOData", b) :: ("CIU_Command", 0x04) :: ("CIU_Command", 0x07) ::
        tt1LoopWrites rest

/-- Lines 303-313 of the source: the single batched `write_register` request
built for a bit-banged command (`data` is the command with checksum already
appended; `data[0]` is written to the FIFO, framed to 7 bits, transmitted,
framing reset to 8 bits, parity generation disabled, each remaining byte
transmitted, and finally the Receive command 0x08 issued). -/
def tt1RegisterWrites (data : List Nat) : List (String × Nat) :=
  ("CIU_FIFOData", data.headD 0) :: ("CIU_BitFraming", 0x07) ::
  ("CIU_Command", 0x04) :: ("CIU_BitFraming", 0x00) :: ("CIU_ManualRCV", 0x30) ::
  (tt1LoopWrites (data.drop 1) ++ [("CIU_Command", 0x08)])

/-- The chipset side of the bit-banged exchange, as the driver observes it:
`exchangeRsp cmd` is the reply `in_data_exchange(cmd, timeout)[0]` would
deliver, and `fifo frame` is the content of the CIU FIFO after the frame
`frame` (command plus checksum) has been transmitted — its length is the
value the `CIU_FIFOLevel` register read returns. -/
structure Tt1Env where
  exchangeRsp : List Nat → List Nat
  fifo : List Nat → List Nat

/-- Lines 302-327 of the source: the register-level path of
`_tt1_send_cmd_recv_rsp` for commands the firmware does not implement.
The checksum is appended (line 302), the batched register writes are issued
(lines 303-314), parity is re-enabled (line 319), the FIFO level is read
(line 320) and a zero level raises `TimeoutError` (line 321) before any FIFO
byte is read; otherwise that many FIFO bytes are read (line 322) and decoded
(lines 323-327). The sleeps of lines 315-318 take no chip operation and are
not modelled. -/
def tt1_bitbang (env : Tt1Env) (cmd : List Nat) : List ChipOp × Except Err (List Nat) :=
  let data := add_crc_b cmd
  let fifo := env.fifo data
  let sendOps := [ChipOp.writeRegister (tt1RegisterWrites data),
                  ChipOp.writeRegister [("CIU_ManualRCV", 0x20)],
                  ChipOp.readRegister ["CIU_FIFOLevel"]]
  if fifo.length = 0 then (sendOps, Except.error Err.timeoutError)
  else (sendOps ++ [ChipOp.readRegister (List.replicate fifo.length "CIU_FIFOData")],
        tt1_decode fifo)

/-- The loop of lines 286-288 of the source: one single-block READ8 command
`"\x02" + chr(block) + data[2:]` per block of the requested segment, each
issued through the recursive `_tt1_send_cmd_recv_rsp` call.  Because every
sub-command starts with 0x02 — which is neither in the firmware set
`(0x00, 0x01, 0x1A, 0x53, 0x72)` nor equal to 0x10 — the recursive call
always takes the register-level branch, so the recursion is inlined here as
`tt1_bitbang` (`tt1_send_cmd_recv_rsp_sub_block` below proves the two
agree).  `[1:9]` of each sub-reply is `(r.drop 1).take 8`.  An exception in
a sub-call propagates, keeping the operations already issued. -/
def tt1_rseg_loop (env : Tt1Env) (tail : List Nat) :
    List Nat → List ChipOp × Except Err (List Nat)
  | [] => ([], Except.ok [])
  | blk :: blks =>
      let sub := tt1_bitbang env (0x02 :: blk :: tail)
      match sub.2 with
      | Except.error e => (sub.1, Except.error e)
      | Except.ok r =>
          let next := tt1_rseg_loop env tail blks
          (sub.1 ++ next.1, next.2.map (fun acc => ((r.drop 1).take 8) ++ acc))

/-- Lines 273-327 of the source, `_tt1_send_cmd_recv_rsp(data, timeout)`:
commands whose first byte is in `(0x00, 0x01, 0x1A, 0x53, 0x72)` are
forwarded to the firmware through `in_data_exchange` (lines 276-278); a
leading 0x10 (RSEG) is re-expressed as 16 single-block reads of the blocks
`(data[1]>>4)*16 .. +16`, returning `data[1:2]` followed by bytes `[1:9]`
of each sub-reply (lines 280-289); everything else is bit-banged through the
CIU registers (lines 302-327).  `data[0]` on an empty bytearray raises
`IndexError`, and `data[1]` in the RSEG branch is read through `headD`
(theorems only use commands that carry the address byte). -/
def tt1_send_cmd_recv_rsp (env : Tt1Env) (data : List Nat) :
    List ChipOp × Except Err (List Nat) :=
  match data with
  | [] => ([], Except.error Err.indexError)
  | b :: rest =>
      if b ∈ [0x00, 0x01, 0x1A, 0x53, 0x72] then
        ([ChipOp.inDataExchange (b :: rest)], Except.ok (env.exchangeRsp (b :: rest)))
      else if b = 0x10 then
        let seg := rest.headD 0 >>> 4
        let inner := tt1_rseg_loop env (rest.drop 1)
          ((List.range 16).map (fun j => seg * 16 + j))
        (inner.1, inner.2.map (fun s => rest.take 1 ++ s))
      else
        tt1_bitbang env (b :: rest)

/-- Modelled from the spec (section 4.5 step 6, the hypothesis side of the
round-trip claim): the 9-bit-per-byte packing the hardware FIFO delivers —
each data byte contributes its 8 bits in shift order followed by one parity
bit. The driver's reconstruction (lines 323-324) inverts this packing. -/
def pack9 : List Nat → List Nat → List Nat
  | b :: bs, p :: ps => octetBitsRev b ++ p :: pack9 bs ps
  | _, _ => []

/-- Modelled from the spec (section 4.5 step 6): the bit stream as stored in
the FIFO, eight consecutive stream bits per FIFO octet in shift order, the
final octet padded with zero bits. Together with `pack9` this is the
synthetic FIFO content of the spec's round-trip property. -/
def bitsToFifo : List Nat → List Nat
  | [] => []
  | b0 :: b1 :: b2 :: b3 :: b4 :: b5 :: b6 :: b7 :: rest =>
      bitsVal [b0, b1, b2, b3, b4, b5, b6, b7] :: bitsToFifo rest
  | l => [bitsVal l]

/-- Corruption of a single bit of the packed stream: position `j` is
replaced by its complement. -/
def flipBit (bits : List Nat) (j : Nat) : List Nat :=
  bits.set j (1 - bits.getD j 0)

/-- Line 114 of the source: the fixed ordered table of supported serial
baud rates. -/
def serial_baudrates : List Nat :=
  [9600, 19200, 38400, 57600, 115200, 230400, 460800, 921600, 1288000]

/-- Python's `tuple.index`: the 0-based index of the first occurrence, or
`none` where Python raises `ValueError`. -/
def listIndex (x : Nat) : List Nat → Option Nat
  | [] => none
  | y :: ys => if y = x then some 0 else (listIndex x ys).map (· + 1)

/-- Lines 113-116 of the source, `set_serial_baudrate(baudrate)`: the rate is
looked up in the fixed table (a missing rate raises `ValueError` before any
byte is sent) and command 0x10 is issued with the index as its single
payload byte. The result is the (opcode, payload) pair handed to the base
`command` primitive; the subsequent ACK frame write is not modelled. -/
def set_serial_baudrate (baudrate : Nat) : Except Err (Nat × List Nat) :=
  match listIndex baudrate serial_baudrates with
  | none => Except.error Err.valueError
  | some i => Except.ok (0x10, [i])

/-- Line 122 of the source: the static ordered wakeup source list; position 2
is the reserved slot `"rfu"`. -/
def power_down_wakeup_src : List String :=
  ["INT0", "INT1", "rfu", "RF", "HSU", "SPI", "GPIO", "I2C"]

/-- Lines 124-126 of the source: `for i, src in enumerate(...): if src in
wakeup_enable: wakeup_set |= 1 << i` — the wakeup bitmask, membership
tested by name against the caller's collection. -/
def wakeupMask (wakeup_enable : List String) : Nat :=
  power_down_wakeup_src.enum.foldl
    (fun acc p => if p.2 ∈ wakeup_enable then acc ||| (1 <<< p.1) else acc) 0

/-- Line 127 of the source: the PowerDown command payload
`bytearray([wakeup_set, int(generate_irq)])`. -/
def power_down_frame (wakeup_enable : List String) (generate_irq : Bool) : List Nat :=
  [wakeupMask wakeup_enable, if generate_irq then 1 else 0]

/-- Lines 136-141 of the source: the decode part of `in_auto_poll`. The code
is `for i in data.pop(0): ...` — `data.pop(0)` pops the leading count byte
as an `int`, and iterating over an `int` raises `TypeError` in Python, so
the loop raises on every nonempty reply before consuming any entry (and
`pop(0)` on an empty bytearray raises `IndexError`). The intended
`for _ in range(data.pop(0))` decode never runs. -/
def in_auto_poll_decode (data : List Nat) : Except Err (List (Nat × List Nat)) :=
  match data with
  | [] => Except.error Err.indexError
  | _ :: _ => Except.error Err.typeError

/-- Lines 143-153 of the source, `tg_init_as_target(...)`: the four `assert`
statements are checked in order before the request is built, so a violation
raises `AssertionError` with nothing constructed or transmitted; otherwise
the (opcode 0x8C, payload) pair handed to `command` is returned, the payload
concatenating the mode byte, the fixed blocks and the two length-prefixed
trailers. (The `type(mode) is int` half of the first assert is the typing
of `mode : Nat`.) -/
def tg_init_as_target (mode : Nat)
    (mifare_params felica_params nfcid3t general_bytes historical_bytes : List Nat) :
    Except Err (Nat × List Nat) :=
  if mode &&& 0b11111000 ≠ 0 then Except.error Err.assertionError
  else if mifare_params.length ≠ 6 then Except.error Err.assertionError
  else if felica_params.length ≠ 18 then Except.error Err.assertionError
  else if nfcid3t.length ≠ 10 then Except.error Err.assertionError
  else Except.ok (0x8C,
    mode :: (mifare_params ++ felica_params ++ nfcid3t ++
      (general_bytes.length :: general_bytes) ++
      (historical_bytes.length :: historical_bytes)))

/-- Lines 329-332 of the source: `listen_tta` raises `NotImplementedError`
immediately; the empty trace records that no operation reaches the chip. -/
def listen_tta {α β : Type} (_target : α) (_timeout : β) :
    List ChipOp × Except Err Unit :=
  ([], Except.error Err.notImplementedError)

/-- Lines 334-337 of the source: `listen_ttb` raises `NotImplementedError`
immediately; the empty trace records that no operation reaches the chip. -/
def listen_ttb {α β : Type} (_target : α) (_timeout : β) :
    List ChipOp × Except Err Unit :=
  ([], Except.error Err.notImplementedError)

/-- Lines 339-342 of the source: `listen_ttf` raises `NotImplementedError`
immediately; the empty trace records that no operation reaches the chip. -/
def listen_ttf {α β : Type} (_target : α) (_timeout : β) :
    List ChipOp × Except Err Unit :=
  ([], Except.error Err.notImplementedError)

/-- Lines 344-351 of the source: `listen_dep(target, timeout)` returns
`self._listen_dep(target, timeout)` — it delegates to the external generic
DEP listen routine (a parameter here, since it lives in the base layer) with
the caller-supplied target and timeout. -/
def listen_dep {α β γ : Type} (listenDepImpl : α → β → γ) (target : α) (timeout : β) : γ :=
  listenDepImpl target timeout

lemma bitsVal_nil : bitsVal [] = 0 := rfl

lemma bitsVal_cons (b : Nat) (l : List Nat) : bitsVal (b :: l) = b + 2 * bitsVal l := rfl

lemma octetBitsRev_length (b : Nat) : (octetBitsRev b).length = 8 := rfl

lemma octetBitsRev_le (b : Nat) : ∀ x ∈ octetBitsRev b, x ≤ 1 := by
  intro x hx
  simp only [octetBitsRev, List.mem_cons, List.not_mem_nil, or_false] at hx
  rcases hx with rfl | rfl | rfl | rfl | rfl | rfl | rfl | rfl <;> omega

lemma bitsVal_lt (l : List Nat) (h : ∀ x ∈ l, x ≤ 1) : bitsVal l < 2 ^ l.length := by
  induction l with
  | nil => simp [bitsVal_nil]
  | cons b t ih =>
      have hb : b ≤ 1 := h b (by simp)
      have ht := ih (fun x hx => h x (by simp [hx]))
      simp only [bitsVal_cons, List.length_cons, pow_succ]
      omega

lemma bitsVal_octetBitsRev (b : Nat) (hb : b < 256) : bitsVal (octetBitsRev b) = b := by
  simp only [octetBitsRev, bitsVal_cons, bitsVal_nil]
  omega

lemma getD_le_one (l : List Nat) (n : Nat) (h : ∀ x ∈ l, x ≤ 1) : l.getD n 0 ≤ 1 := by
  induction l generalizing n with
  | nil => simp [List.getD]
  | cons b t ih =>
      cases n with
      | zero => exact h b (by simp)
      | succ m => exact ih m (fun x hx => h x (by simp [hx]))

lemma octetBitsRev_bitsVal_pad :
    ∀ c : List Nat, (∀ x ∈ c, x ≤ 1) → c.length ≤ 8 →
      octetBitsRev (bitsVal c) = c ++ List.replicate (8 - c.length) 0 := by
  intro c h1 h8
  rcases c with _ | ⟨c0, _ | ⟨c1, _ | ⟨c2, _ | ⟨c3, _ | ⟨c4, _ | ⟨c5, _ | ⟨c6, _ |
    ⟨c7, _ | ⟨c8, c⟩⟩⟩⟩⟩⟩⟩⟩⟩
  · decide
  all_goals simp only [List.length_cons, List.length_nil] at h8 ⊢
  all_goals try omega
  all_goals simp only [List.mem_cons, List.not_mem_nil, or_false, forall_eq_or_imp,
    forall_eq] at h1
  all_goals simp only [octetBitsRev, bitsVal_cons, bitsVal_nil, List.replicate,
    List.cons_append, List.nil_append, List.cons.injEq, and_true]
  all_goals omega

lemma octetBitsRev_bitsVal8 (c : List Nat) (h1 : ∀ x ∈ c, x ≤ 1) (h8 : c.length = 8) :
    octetBitsRev (bitsVal c) = c := by
  have := octetBitsRev_bitsVal_pad c h1 (by omega)
  simpa [h8] using this

lemma join_bitsToFifo :
    ∀ (n : Nat) (S : List Nat), S.length = n → (∀ x ∈ S, x ≤ 1) →
      ((bitsToFifo S).map octetBitsRev).flatten =
        S ++ List.replicate ((8 - S.length % 8) % 8) 0 := by
  intro n
  induction n using Nat.strong_induction_on with
  | _ n ih =>
    intro S hlen h1
    rcases S with _ | ⟨b0, _ | ⟨b1, _ | ⟨b2, _ | ⟨b3, _ | ⟨b4, _ | ⟨b5, _ | ⟨b6, _ |
      ⟨b7, rest⟩⟩⟩⟩⟩⟩⟩⟩
    · decide
    -- the seven chunks shorter than 8 bits
    case cons.nil =>
      rw [show bitsToFifo [b0] = [bitsVal [b0]] from rfl]
      simp only [List.map_cons, List.map_nil, List.flatten_cons, List.flatten_nil,
        List.append_nil]
      rw [octetBitsRev_bitsVal_pad _ h1 (by simp)]
      simp
    case cons.cons.nil =>
      rw [show bitsToFifo [b0, b1] = [bitsVal [b0, b1]] from rfl]
      simp only [List.map_cons, List.map_nil, List.flatten_cons, List.flatten_nil,
        List.append_nil]
      rw [octetBitsRev_bitsVal_pad _ h1 (by simp)]
      simp
    case cons.cons.cons.nil =>
      rw [show bitsToFifo [b0, b1, b2] = [bitsVal [b0, b1, b2]] from rfl]
      simp only [List.map_cons, List.map_nil, List.flatten_cons, List.flatten_nil,
        List.append_nil]
      rw [octetBitsRev_bitsVal_pad _ h1 (by simp)]
      simp
    case cons.cons.cons.cons.nil =>
      rw [show bitsToFifo [b0, b1, b2, b3] = [bitsVal [b0, b1, b2, b3]] from rfl]
      simp only [List.map_cons, List.map_nil, List.flatten_cons, List.flatten_nil,
        List.append_nil]
      rw [octetBitsRev_bitsVal_pad _ h1 (by simp)]
      simp
    case cons.cons.cons.cons.cons.nil =>
      rw [show bitsToFifo [b0, b1, b2, b3, b4] = [bitsVal [b0, b1, b2, b3, b4]] from rfl]
      simp only [List.map_cons, List.map_nil, List.flatten_cons, List.flatten_nil,
        List.append_nil]
      rw [octetBitsRev_bitsVal_pad _ h1 (by simp)]
      simp
    case cons.cons.cons.cons.cons.cons.nil =>
      rw [show bitsToFifo [b0, b1, b2, b3, b4, b5] =
        [bitsVal [b0, b1, b2, b3, b4, b5]] from rfl]
      simp only [List.map_cons, List.map_nil, List.flatten_cons, List.flatten_nil,
        List.append_nil]
      rw [octetBitsRev_bitsVal_pad _ h1 (by simp)]
      simp
    case cons.cons.cons.cons.cons.cons.cons.nil =>
      rw [show bitsToFifo [b0, b1, b2, b3, b4, b5, b6] =
        [bitsVal [b0, b1, b2, b3, b4, b5, b6]] from rfl]
      simp only [List.map_cons, List.map_nil, List.flatten_cons, List.flatten_nil,
        List.append_nil]
      rw [octetBitsRev_bitsVal_pad _ h1 (by simp)]
      simp
    -- the full 8-bit chunk followed by the remaining stream
    case cons.cons.cons.cons.cons.cons.cons.cons =>
      rw [show bitsToFifo (b0 :: b1 :: b2 :: b3 :: b4 :: b5 :: b6 :: b7 :: rest) =
        bitsVal [b0, b1, b2, b3, b4, b5, b6, b7] :: bitsToFifo rest from rfl]
      simp only [List.map_cons, List.flatten_cons]
      have h1l : ∀ x ∈ ([b0, b1, b2, b3, b4, b5, b6, b7] : List Nat), x ≤ 1 := by
        intro x hx
        apply h1
        simp only [List.mem_cons, List.not_mem_nil, or_false] at hx ⊢
        tauto
      have h1r : ∀ x ∈ rest, x ≤ 1 := by
        intro x hx; exact h1 x (by simp [hx])
      rw [octetBitsRev_bitsVal8 _ h1l (by simp)]
      have hlt : rest.length < n := by
        simp only [List.length_cons] at hlen; omega
      rw [ih rest.length hlt rest rfl h1r]
      simp only [List.length_cons, List.cons_append, List.append_assoc]
      have : (rest.length + 1 + 1 + 1 + 1 + 1 + 1 + 1 + 1) % 8 = rest.length % 8 := by
        omega
      rw [this]
      simp

lemma regroup9_short :
    ∀ l : List Nat, l.length < 9 → regroup9 l = [] := by
  intro l hl
  rcases l with _ | ⟨c0, _ | ⟨c1, _ | ⟨c2, _ | ⟨c3, _ | ⟨c4, _ | ⟨c5, _ | ⟨c6, _ |
    ⟨c7, _ | ⟨c8, l⟩⟩⟩⟩⟩⟩⟩⟩⟩ <;> first
    | rfl
    | (simp only [List.length_cons] at hl; omega)

lemma pack9_bits_le (d : List Nat) :
    ∀ par : List Nat, (∀ p ∈ par, p ≤ 1) → ∀ x ∈ pack9 d par, x ≤ 1 := by
  induction d with
  | nil => intro par _ x hx; rw [show pack9 [] par = [] from rfl] at hx; simp at hx
  | cons b bs ih =>
      intro par hp x hx
      cases par with
      | nil => rw [show pack9 (b :: bs) [] = [] from rfl] at hx; simp at hx
      | cons p ps =>
          rw [show pack9 (b :: bs) (p :: ps) = octetBitsRev b ++ p :: pack9 bs ps
            from rfl] at hx
          rcases List.mem_append.mp hx with h | h
          · exact octetBitsRev_le b x h
          · rcases List.mem_cons.mp h with rfl | h
            · exact hp x (by simp)
            · exact ih ps (fun q hq => hp q (by simp [hq])) x h

lemma regroup9_pack9 :
    ∀ (d par z : List Nat), (∀ x ∈ d, x < 256) → par.length = d.length →
      z.length < 9 → regroup9 (pack9 d par ++ z) = d := by
  intro d
  induction d with
  | nil =>
      intro par z _ hlen hz
      rcases par with _ | _
      · rw [show pack9 [] [] = [] from rfl, List.nil_append]
        exact regroup9_short z hz
      · simp at hlen
  | cons b bs ih =>
      intro par z hb hlen hz
      rcases par with _ | ⟨p, ps⟩
      · simp at hlen
      · rw [show pack9 (b :: bs) (p :: ps) = octetBitsRev b ++ p :: pack9 bs ps
          from rfl]
        rw [show octetBitsRev b = [b % 2, b / 2 % 2, b / 4 % 2, b / 8 % 2, b / 16 % 2,
          b / 32 % 2, b / 64 % 2, b / 128 % 2] from rfl]
        simp only [List.cons_append, List.nil_append]
        rw [show regroup9 (b % 2 :: b / 2 % 2 :: b / 4 % 2 :: b / 8 % 2 :: b / 16 % 2 ::
          b / 32 % 2 :: b / 64 % 2 :: b / 128 % 2 :: p :: (pack9 bs ps ++ z)) =
          bitsVal [b % 2, b / 2 % 2, b / 4 % 2, b / 8 % 2, b / 16 % 2, b / 32 % 2,
            b / 64 % 2, b / 128 % 2] :: regroup9 (pack9 bs ps ++ z) from rfl]
        have hbv : bitsVal [b % 2, b / 2 % 2, b / 4 % 2, b / 8 % 2, b / 16 % 2,
            b / 32 % 2, b / 64 % 2, b / 128 % 2] = b :=
          bitsVal_octetBitsRev b (hb b (by simp))
        rw [hbv, ih ps z (fun x hx => hb x (by simp [hx]))
          (by simpa using Nat.succ_injective (by simpa using hlen)) hz]

lemma tt1_reconstruct_pack (d par : List Nat) (hb : ∀ x ∈ d, x < 256)
    (hp : ∀ p ∈ par, p ≤ 1) (hl : par.length = d.length) :
    tt1_reconstruct (bitsToFifo (pack9 d par)) = d := by
  unfold tt1_reconstruct
  rw [join_bitsToFifo (pack9 d par).length (pack9 d par) rfl (pack9_bits_le d par hp)]
  exact regroup9_pack9 d par _ hb hl (by
    have := Nat.mod_lt (8 - (pack9 d par).length % 8) (show 0 < 8 by omega)
    simp only [List.length_replicate]
    omega)

lemma crc_b_length (data : List Nat) : (crc_b data).length = 2 := rfl

lemma crc_fin_bytes_lt (c : Nat) :
    (0xFFFF ^^^ (c % 0x10000)) % 256 < 256 ∧ (0xFFFF ^^^ (c % 0x10000)) / 256 < 256 := by
  have h16 : (0xFFFF : Nat) ^^^ (c % 0x10000) < 0x10000 :=
    Nat.xor_lt_two_pow (n := 16) (by omega) (Nat.mod_lt _ (by omega))
  constructor
  · exact Nat.mod_lt _ (by omega)
  · omega

lemma crc_b_lt (data : List Nat) : ∀ x ∈ crc_b data, x < 256 := by
  intro x hx
  unfold crc_b at hx
  simp only [List.mem_cons, List.not_mem_nil, or_false] at hx
  rcases hx with rfl | rfl
  · exact (crc_fin_bytes_lt _).1
  · exact (crc_fin_bytes_lt _).2

lemma add_crc_b_length (data : List Nat) :
    (add_crc_b data).length = data.length + 2 := by
  simp [add_crc_b, crc_b_length]

lemma add_crc_b_lt (data : List Nat) (hb : ∀ x ∈ data, x < 256) :
    ∀ x ∈ add_crc_b data, x < 256 := by
  intro x hx
  rcases List.mem_append.mp hx with h | h
  · exact hb x h
  · exact crc_b_lt data x h

lemma add_crc_b_take (data : List Nat) :
    (add_crc_b data).take ((add_crc_b data).length - 2) = data := by
  rw [add_crc_b_length]
  simp only [Nat.add_sub_cancel, add_crc_b]
  exact List.take_left data (crc_b data)

lemma add_crc_b_drop (data : List Nat) :
    (add_crc_b data).drop ((add_crc_b data).length - 2) = crc_b data := by
  rw [add_crc_b_length]
  simp only [Nat.add_sub_cancel, add_crc_b]
  exact List.drop_left data (crc_b data)

lemma check_add_crc_b (data : List Nat) : check_crc_b (add_crc_b data) = true := by
  unfold check_crc_b
  rw [add_crc_b_take, add_crc_b_drop]
  simp

lemma tt1_decode_pack (payload par : List Nat) (hb : ∀ x ∈ payload, x < 256)
    (hp : ∀ p ∈ par, p ≤ 1) (hl : par.length = (add_crc_b payload).length) :
    tt1_decode (bitsToFifo (pack9 (add_crc_b payload) par)) = Except.ok payload := by
  simp only [tt1_decode]
  rw [tt1_reconstruct_pack (add_crc_b payload) par (add_crc_b_lt payload hb) hp hl]
  rw [check_add_crc_b]
  simp [add_crc_b_take]

lemma getD_set_self (l : List Nat) (n : Nat) (x : Nat) (h : n < l.length) :
    (l.set n x).getD n 0 = x := by
  rw [List.getD_eq_getElem?_getD, List.getElem?_set]
  simp [h]

lemma flipBit_pack9 :
    ∀ (d par : List Nat) (m t : Nat), (∀ x ∈ d, x < 256) → m < d.length → t < 8 →
      par.length = d.length →
      ∃ v, v < 256 ∧ v ≠ d.getD m 0 ∧
        flipBit (pack9 d par) (9 * m + t) = pack9 (d.set m v) par := by
  intro d
  induction d with
  | nil => intro par m t _ hm _ _; simp at hm
  | cons b bs ih =>
    intro par m t hb hm ht hl
    rcases par with _ | ⟨p, ps⟩
    · simp at hl
    have hpl : ps.length = bs.length := by simpa using hl
    have hpack : pack9 (b :: bs) (p :: ps) = octetBitsRev b ++ p :: pack9 bs ps := rfl
    cases m with
    | zero =>
      have hL8 : (octetBitsRev b).length = 8 := octetBitsRev_length b
      have hidx : 9 * 0 + t = t := by omega
      set c := (octetBitsRev b).set t (1 - (octetBitsRev b).getD t 0) with hc
      have hc1 : ∀ x ∈ c, x ≤ 1 := by
        intro x hx
        rcases List.mem_or_eq_of_mem_set hx with h | rfl
        · exact octetBitsRev_le b x h
        · omega
      have hclen : c.length = 8 := by rw [hc, List.length_set, hL8]
      refine ⟨bitsVal c, ?_, ?_, ?_⟩
      · have := bitsVal_lt c hc1
        rw [hclen] at this
        exact this
      · intro hv
        have hgd : (b :: bs).getD 0 0 = b := rfl
        rw [hgd] at hv
        have hoc : octetBitsRev b = c := by
          rw [← hv]
          exact octetBitsRev_bitsVal8 c hc1 hclen
        have h1 : (octetBitsRev b).getD t 0 = c.getD t 0 := by rw [hoc]
        have h2 : c.getD t 0 = 1 - (octetBitsRev b).getD t 0 := by
          rw [hc]
          exact getD_set_self _ t _ (by rw [hL8]; exact ht)
        have h3 : (octetBitsRev b).getD t 0 ≤ 1 :=
          getD_le_one _ t (octetBitsRev_le b)
        omega
      · rw [hidx, hpack]
        unfold flipBit
        rw [List.getD_append _ _ 0 t (by rw [hL8]; exact ht)]
        rw [List.set_append, if_pos (by rw [hL8]; exact ht)]
        have hset0 : (b :: bs).set 0 (bitsVal c) = bitsVal c :: bs := rfl
        rw [hset0]
        have : pack9 (bitsVal c :: bs) (p :: ps) =
            octetBitsRev (bitsVal c) ++ p :: pack9 bs ps := rfl
        rw [this, octetBitsRev_bitsVal8 c hc1 hclen]
    | succ m' =>
      have hm' : m' < bs.length := by simpa using hm
      obtain ⟨v, hv256, hvne, hveq⟩ := ih ps m' t
        (fun x hx => hb x (by simp [hx])) hm' ht hpl
      refine ⟨v, hv256, by simpa using hvne, ?_⟩
      rw [hpack, List.append_cons]
      have hL9 : (octetBitsRev b ++ [p]).length = 9 := by
        simp [octetBitsRev_length]
      unfold flipBit
      rw [List.getD_append_right _ _ 0 (9 * (m' + 1) + t) (by rw [hL9]; omega)]
      rw [List.set_append, if_neg (by rw [hL9]; omega)]
      rw [hL9, show 9 * (m' + 1) + t - 9 = 9 * m' + t by omega]
      have hflip := hveq
      unfold flipBit at hflip
      rw [hflip]
      have hsetS : (b :: bs).set (m' + 1) v = b :: bs.set m' v := rfl
      rw [hsetS]
      have : pack9 (b :: bs.set m' v) (p :: ps) =
          octetBitsRev b ++ p :: pack9 (bs.set m' v) ps := rfl
      rw [this]
      simp

lemma take_set_of_le {α : Type} (l : List α) (n m : Nat) (v : α) (h : n ≤ m) :
    (l.set m v).take n = l.take n := by
  induction l generalizing n m with
  | nil => simp
  | cons a t ih =>
    cases m with
    | zero =>
      have : n = 0 := Nat.le_zero.mp h
      simp [this]
    | succ m' =>
      cases n with
      | zero => simp
      | succ n' =>
        have hstep : (a :: t).set (m' + 1) v = a :: t.set m' v := rfl
        rw [hstep, List.take_succ_cons, List.take_succ_cons,
          ih n' m' (Nat.le_of_succ_le_succ h)]

lemma check_crc_b_set_false (payload : List Nat) (m v : Nat)
    (h1 : (add_crc_b payload).length - 2 ≤ m) (h2 : m < (add_crc_b payload).length)
    (hv : v ≠ (add_crc_b payload).getD m 0) :
    check_crc_b ((add_crc_b payload).set m v) = false := by
  have hk : (add_crc_b payload).length = payload.length + 2 := add_crc_b_length payload
  unfold check_crc_b
  rw [List.length_set]
  rw [take_set_of_le _ _ _ _ h1, add_crc_b_take]
  rw [List.drop_set, if_neg (by omega)]
  rw [add_crc_b_drop]
  rw [beq_eq_false_iff_ne]
  intro hEq
  have hj0 : m - ((add_crc_b payload).length - 2) < (crc_b payload).length := by
    rw [crc_b_length]; omega
  have hgd1 : ((crc_b payload).set (m - ((add_crc_b payload).length - 2)) v).getD
      (m - ((add_crc_b payload).length - 2)) 0 = v :=
    getD_set_self _ _ _ hj0
  have hidx : (add_crc_b payload).length - 2 +
      (m - ((add_crc_b payload).length - 2)) = m := by omega
  have hgd2 : (crc_b payload).getD (m - ((add_crc_b payload).length - 2)) 0 =
      (add_crc_b payload).getD m 0 := by
    rw [← add_crc_b_drop payload]
    rw [List.getD_eq_getElem?_getD, List.getD_eq_getElem?_getD, List.getElem?_drop, hidx]
  rw [hEq] at hgd2
  rw [hgd1] at hgd2
  exact hv hgd2

lemma tt1_decode_flip (payload par : List Nat) (m t : Nat)
    (hb : ∀ x ∈ payload, x < 256) (hp : ∀ p ∈ par, p ≤ 1)
    (hl : par.length = (add_crc_b payload).length)
    (hm1 : (add_crc_b payload).length - 2 ≤ m) (hm2 : m < (add_crc_b payload).length)
    (ht : t < 8) :
    tt1_decode (bitsToFifo (flipBit (pack9 (add_crc_b payload) par) (9 * m + t))) =
      Except.error Err.transmissionError := by
  obtain ⟨v, hv256, hvne, hveq⟩ :=
    flipBit_pack9 (add_crc_b payload) par m t (add_crc_b_lt payload hb) hm2 ht hl
  rw [hveq]
  simp only [tt1_decode]
  rw [tt1_reconstruct_pack _ par
    (by
      intro x hx
      rcases List.mem_or_eq_of_mem_set hx with h | rfl
      · exact add_crc_b_lt payload hb x h
      · exact hv256)
    hp (by rw [List.length_set]; exact hl)]
  rw [check_crc_b_set_false payload m v hm1 hm2 hvne]
  simp

lemma tt1_send_cmd_recv_rsp_sub_block (env : Tt1Env) (blk : Nat) (tail : List Nat) :
    tt1_send_cmd_recv_rsp env (0x02 :: blk :: tail) =
      tt1_bitbang env (0x02 :: blk :: tail) := by
  simp [tt1_send_cmd_recv_rsp]

lemma tt1LoopWrites_eq_flatten (l : List Nat) :
    tt1LoopWrites l = (l.map (fun x =>
      [(("CIU_FIFOData", x) : String × Nat), ("CIU_Command", 0x04),
       ("CIU_Command", 0x07)])).flatten := by
  induction l with
  | nil => rfl
  | cons b rest ih => simp [tt1LoopWrites, ih]

lemma tt1_send_bypass (env : Tt1Env) (b : Nat) (rest : List Nat)
    (h1 : b ∉ [0x00, 0x01, 0x1A, 0x53, 0x72]) (h2 : b ≠ 0x10) :
    tt1_send_cmd_recv_rsp env (b :: rest) = tt1_bitbang env (b :: rest) := by
  simp only [tt1_send_cmd_recv_rsp]
  rw [if_neg h1, if_neg h2]

lemma tt1_bitbang_no_exchange (env : Tt1Env) (cmd : List Nat) :
    ∀ d, ChipOp.inDataExchange d ∉ (tt1_bitbang env cmd).1 := by
  intro d hmem
  simp only [tt1_bitbang] at hmem
  by_cases hc : (env.fifo (add_crc_b cmd)).length = 0 <;> simp [hc] at hmem

lemma tt1_rseg_loop_ok (env : Tt1Env) (tail : List Nat) (r : Nat → List Nat) :
    ∀ blocks : List Nat,
      (∀ blk ∈ blocks, (tt1_bitbang env (0x02 :: blk :: tail)).2 = Except.ok (r blk)) →
      tt1_rseg_loop env tail blocks =
        ((blocks.map (fun blk => (tt1_bitbang env (0x02 :: blk :: tail)).1)).flatten,
         Except.ok ((blocks.map (fun blk => ((r blk).drop 1).take 8)).flatten)) := by
  intro blocks
  induction blocks with
  | nil => intro _; rfl
  | cons blk blks ih =>
      intro h
      have hblk := h blk (by simp)
      have hrec := ih (fun q hq => h q (by simp [hq]))
      simp only [tt1_rseg_loop]
      rw [hblk, hrec]
      simp [Except.map]

lemma enum_wakeup_src :
    power_down_wakeup_src.enum =
      [(0, "INT0"), (1, "INT1"), (2, "rfu"), (3, "RF"), (4, "HSU"), (5, "SPI"),
       (6, "GPIO"), (7, "I2C")] := rfl

lemma foldl_wakeup_testBit (e : List String) :
    ∀ (ps : List (Nat × String)) (acc : Nat) (j : Nat),
      (ps.foldl (fun acc p => if p.2 ∈ e then acc ||| (1 <<< p.1) else acc)
        acc).testBit j =
        (acc.testBit j || ps.any (fun p => p.1 == j && decide (p.2 ∈ e))) := by
  intro ps
  induction ps with
  | nil => simp
  | cons q qs ih =>
      intro acc j
      simp only [List.foldl_cons, List.any_cons]
      rw [ih]
      by_cases hq : q.2 ∈ e
      · rw [if_pos hq, Nat.testBit_or, Nat.one_shiftLeft, Nat.testBit_two_pow]
        have hbeq : (q.1 == j) = decide (q.1 = j) := by
          by_cases h : q.1 = j <;> simp [h]
        simp [hq, hbeq, Bool.or_assoc]
      · rw [if_neg hq]
        simp [hq]

lemma wakeupMask_testBit (e : List String) (j : Nat) :
    (wakeupMask e).testBit j =
      ((0 == j && decide ("INT0" ∈ e)) || (1 == j && decide ("INT1" ∈ e)) ||
       (2 == j && decide ("rfu" ∈ e)) || (3 == j && decide ("RF" ∈ e)) ||
       (4 == j && decide ("HSU" ∈ e)) || (5 == j && decide ("SPI" ∈ e)) ||
       (6 == j && decide ("GPIO" ∈ e)) || (7 == j && decide ("I2C" ∈ e))) := by
  unfold wakeupMask
  rw [enum_wakeup_src, foldl_wakeup_testBit]
  simp [Bool.or_assoc]

lemma foldl_wakeup_lt (e : List String) :
    ∀ (ps : List (Nat × String)) (acc : Nat), acc < 256 → (∀ p ∈ ps, p.1 < 8) →
      ps.foldl (fun acc p => if p.2 ∈ e then acc ||| (1 <<< p.1) else acc) acc <
        256 := by
  intro ps
  induction ps with
  | nil => intro acc hacc _; simpa using hacc
  | cons q qs ih =>
      intro acc hacc hlt
      simp only [List.foldl_cons]
      apply ih
      · by_cases hq : q.2 ∈ e
        · rw [if_pos hq]
          apply Nat.or_lt_two_pow (n := 8) hacc
          rw [Nat.one_shiftLeft]
          exact Nat.pow_lt_pow_right (by omega) (hlt q (by simp))
        · rw [if_neg hq]; exact hacc
      · intro p hp; exact hlt p (by simp [hp])

lemma wakeupMask_lt (e : List String) : wakeupMask e < 256 := by
  unfold wakeupMask
  apply foldl_wakeup_lt e _ 0 (by omega)
  rw [enum_wakeup_src]
  intro p hp
  simp only [List.mem_cons, List.not_mem_nil, or_false] at hp
  rcases hp with rfl | rfl | rfl | rfl | rfl | rfl | rfl | rfl <;> omega

lemma wakeupMask_membership_invariant (e1 e2 : List String)
    (h : ∀ s, s ∈ e1 ↔ s ∈ e2) : wakeupMask e1 = wakeupMask e2 := by
  unfold wakeupMask
  simp only [h]

lemma listIndex_eq_none (x : Nat) :
    ∀ l : List Nat, x ∉ l → listIndex x l = none := by
  intro l
  induction l with
  | nil => intro _; rfl
  | cons y ys ih =>
      intro h
      unfold listIndex
      rw [if_neg (fun he => h (by simp [he]))]
      rw [ih (fun hm => h (by simp [hm]))]
      rfl

lemma pack9_ne_nil (d par : List Nat) (hd : d ≠ []) (hl : par.length = d.length) :
    pack9 d par ≠ [] := by
  rcases d with _ | ⟨b, bs⟩
  · exact absurd rfl hd
  rcases par with _ | ⟨p, ps⟩
  · simp at hl
  rw [show pack9 (b :: bs) (p :: ps) = octetBitsRev b ++ p :: pack9 bs ps from rfl]
  simp [octetBitsRev]

lemma bitsToFifo_ne_nil (S : List Nat) (h1 : ∀ x ∈ S, x ≤ 1) (hS : S ≠ []) :
    bitsToFifo S ≠ [] := by
  intro hB
  have hA := join_bitsToFifo S.length S rfl h1
  rw [hB] at hA
  simp only [List.map_nil, List.flatten_nil] at hA
  have := List.append_eq_nil.mp hA.symm
  exact hS this.1

lemma add_crc_b_ne_nil (data : List Nat) : add_crc_b data ≠ [] := by
  intro h
  have := add_crc_b_length data
  rw [h] at this
  simp at this

lemma tt1RegisterWrites_add_crc (b : Nat) (rest : List Nat) :
    tt1RegisterWrites (add_crc_b (b :: rest)) =
      ("CIU_FIFOData", b) :: ("CIU_BitFraming", 0x07) :: ("CIU_Command", 0x04) ::
      ("CIU_BitFraming", 0x00) :: ("CIU_ManualRCV", 0x30) ::
      (((rest ++ crc_b (b :: rest)).map (fun x =>
        [(("CIU_FIFOData", x) : String × Nat), ("CIU_Command", 0x04),
         ("CIU_Command", 0x07)])).flatten ++ [("CIU_Command", 0x08)]) := by
  have hd : add_crc_b (b :: rest) = b :: (rest ++ crc_b (b :: rest)) := by
    simp [add_crc_b]
  unfold tt1RegisterWrites
  rw [hd]
  simp [tt1LoopWrites_eq_flatten]

/-- C2: for every command whose first byte is outside the firmware set
`(0x00, 0x01, 0x1A, 0x53, 0x72)` and is not the segment read 0x10,
`_tt1_send_cmd_recv_rsp` first appends the 16-bit checksum and then issues
exactly this register-write sequence: the first byte into the FIFO,
bit-framing set to 7-bit transmission (0x07), a Transmit command (0x04),
bit-framing reset to 8 bits (0x00), automatic parity generation disabled
(ManualRCV 0x30), then for each remaining byte (the command tail plus the
two checksum bytes) a FIFO write, a Transmit command and a NoCmdChange
marker (0x07), and finally a single Receive command (0x08) — after which
parity handling is re-enabled (ManualRCV 0x20). -/
theorem C2_bypass_register_sequence (env : Tt1Env) (b : Nat) (rest : List Nat)
    (h1 : b ∉ [0x00, 0x01, 0x1A, 0x53, 0x72]) (h2 : b ≠ 0x10) :
    ∃ tailOps,
      (tt1_send_cmd_recv_rsp env (b :: rest)).1 =
        ChipOp.writeRegister
          (("CIU_FIFOData", b) :: ("CIU_BitFraming", 0x07) :: ("CIU_Command", 0x04) ::
           ("CIU_BitFraming", 0x00) :: ("CIU_ManualRCV", 0x30) ::
           (((rest ++ crc_b (b :: rest)).map (fun x =>
             [(("CIU_FIFOData", x) : String × Nat), ("CIU_Command", 0x04),
              ("CIU_Command", 0x07)])).flatten ++ [("CIU_Command", 0x08)])) ::
        ChipOp.writeRegister [("CIU_ManualRCV", 0x20)] ::
        ChipOp.readRegister ["CIU_FIFOLevel"] :: tailOps := by
  rw [tt1_send_bypass env b rest h1 h2]
  simp only [tt1_bitbang]
  rw [← tt1RegisterWrites_add_crc b rest]
  by_cases hf : (env.fifo (add_crc_b (b :: rest))).length = 0
  · exact ⟨[], by rw [if_pos hf]⟩
  · exact ⟨[ChipOp.readRegister
      (List.replicate (env.fifo (add_crc_b (b :: rest))).length "CIU_FIFOData")],
      by rw [if_neg hf]; simp⟩

/-- C2 witness: the sequence at the concrete command `[0x02, 0x05]` with an
empty-FIFO environment. -/
theorem C2_bypass_register_sequence_witness :
    ∃ tailOps,
      (tt1_send_cmd_recv_rsp ⟨fun _ => [], fun _ => []⟩ (0x02 :: [0x05])).1 =
        ChipOp.writeRegister
          (("CIU_FIFOData", 0x02) :: ("CIU_BitFraming", 0x07) :: ("CIU_Command", 0x04) ::
           ("CIU_BitFraming", 0x00) :: ("CIU_ManualRCV", 0x30) ::
           ((([0x05] ++ crc_b (0x02 :: [0x05])).map (fun x =>
             [(("CIU_FIFOData", x) : String × Nat), ("CIU_Command", 0x04),
              ("CIU_Command", 0x07)])).flatten ++ [("CIU_Command", 0x08)])) ::
        ChipOp.writeRegister [("CIU_ManualRCV", 0x20)] ::
        ChipOp.readRegister ["CIU_FIFOLevel"] :: tailOps :=
  C2_bypass_register_sequence ⟨fun _ => [], fun _ => []⟩ 0x02 [0x05]
    (by decide) (by decide)

/-- C3: whenever the FIFO fill level read after a bit-banged transmit is
zero, `_tt1_send_cmd_recv_rsp` raises `TimeoutError` at once — the trace
ends at the `CIU_FIFOLevel` read, no `CIU_FIFOData` read is issued — and it
never returns a successful (in particular an empty) reply. -/
theorem C3_zero_fifo_level_timeout (env : Tt1Env) (b : Nat) (rest : List Nat)
    (h1 : b ∉ [0x00, 0x01, 0x1A, 0x53, 0x72]) (h2 : b ≠ 0x10)
    (hf : (env.fifo (add_crc_b (b :: rest))).length = 0) :
    tt1_send_cmd_recv_rsp env (b :: rest) =
      ([ChipOp.writeRegister (tt1RegisterWrites (add_crc_b (b :: rest))),
        ChipOp.writeRegister [("CIU_ManualRCV", 0x20)],
        ChipOp.readRegister ["CIU_FIFOLevel"]],
       Except.error Err.timeoutError)
    ∧ ∀ reply, (tt1_send_cmd_recv_rsp env (b :: rest)).2 ≠ Except.ok reply := by
  have hmain : tt1_send_cmd_recv_rsp env (b :: rest) =
      ([ChipOp.writeRegister (tt1RegisterWrites (add_crc_b (b :: rest))),
        ChipOp.writeRegister [("CIU_ManualRCV", 0x20)],
        ChipOp.readRegister ["CIU_FIFOLevel"]],
       Except.error Err.timeoutError) := by
    rw [tt1_send_bypass env b rest h1 h2]
    simp only [tt1_bitbang]
    rw [if_pos hf]
  exact ⟨hmain, by rw [hmain]; simp⟩

/-- C3 witness: the concrete command `[0x02]` against an environment whose
FIFO stays empty. -/
theorem C3_zero_fifo_level_timeout_witness :
    tt1_send_cmd_recv_rsp ⟨fun _ => [], fun _ => []⟩ (0x02 :: []) =
      ([ChipOp.writeRegister (tt1RegisterWrites (add_crc_b (0x02 :: []))),
        ChipOp.writeRegister [("CIU_ManualRCV", 0x20)],
        ChipOp.readRegister ["CIU_FIFOLevel"]],
       Except.error Err.timeoutError)
    ∧ ∀ reply, (tt1_send_cmd_recv_rsp ⟨fun _ => [], fun _ => []⟩ (0x02 :: [])).2 ≠
        Except.ok reply :=
  C3_zero_fifo_level_timeout ⟨fun _ => [], fun _ => []⟩ 0x02 []
    (by decide) (by decide) (by decide)

/-- C5: for every command whose first byte is the segment-read code 0x10,
`_tt1_send_cmd_recv_rsp` issues exactly the operations of 16 single-block
(0x02) reads covering blocks `(addr>>4)*16 .. (addr>>4)*16+15` of the
requested segment, in order; each block reply is stripped to its 8 payload
bytes (`[1:9]`, exactly 8 bytes when the reply has the 9-byte block-read
shape); the result is the echoed address byte followed by the concatenation
of those payloads; and no firmware `InDataExchange` — in particular never
the native multi-segment command — appears in the trace. -/
theorem C5_rseg_sixteen_single_block_reads (env : Tt1Env) (addr : Nat)
    (rest : List Nat) (r : Nat → List Nat)
    (hok : ∀ blk, (tt1_bitbang env (0x02 :: blk :: rest)).2 = Except.ok (r blk))
    (hlen : ∀ blk, (r blk).length = 9) :
    (tt1_send_cmd_recv_rsp env (0x10 :: addr :: rest)).2 =
      Except.ok (addr ::
        (((List.range 16).map (fun j => (addr >>> 4) * 16 + j)).map
          (fun blk => ((r blk).drop 1).take 8)).flatten)
    ∧ (tt1_send_cmd_recv_rsp env (0x10 :: addr :: rest)).1 =
      (((List.range 16).map (fun j => (addr >>> 4) * 16 + j)).map
        (fun blk => (tt1_bitbang env (0x02 :: blk :: rest)).1)).flatten
    ∧ (∀ blk, (((r blk).drop 1).take 8).length = 8)
    ∧ ∀ d, ChipOp.inDataExchange d ∉ (tt1_send_cmd_recv_rsp env (0x10 :: addr :: rest)).1 := by
  have hdisp : tt1_send_cmd_recv_rsp env (0x10 :: addr :: rest) =
      ((((List.range 16).map (fun j => (addr >>> 4) * 16 + j)).map
          (fun blk => (tt1_bitbang env (0x02 :: blk :: rest)).1)).flatten,
       Except.ok (addr ::
        (((List.range 16).map (fun j => (addr >>> 4) * 16 + j)).map
          (fun blk => ((r blk).drop 1).take 8)).flatten)) := by
    simp only [tt1_send_cmd_recv_rsp]
    rw [if_pos trivial]
    rw [tt1_rseg_loop_ok env ((addr :: rest).drop 1) r _
      (fun blk _ => by simpa using hok blk)]
    simp [Except.map]
  refine ⟨by rw [hdisp], by rw [hdisp], ?_, ?_⟩
  · intro blk
    have := hlen blk
    simp [List.length_take, List.length_drop, this]
  · intro d hmem
    rw [hdisp] at hmem
    simp only [List.mem_flatten, List.mem_map] at hmem
    obtain ⟨ops, ⟨blk, _, rfl⟩, hop⟩ := hmem
    exact tt1_bitbang_no_exchange env (0x02 :: blk :: rest) d hop

set_option maxRecDepth 16000 in
lemma c5_env_fifo_ok (blk : Nat) :
    (tt1_bitbang
      ⟨fun _ => [], fun _ => [0, 2, 8, 24, 64, 160, 128, 129, 3, 8, 128, 124, 1]⟩
      (0x02 :: blk :: [])).2 = Except.ok [0, 1, 2, 3, 4, 5, 6, 7, 8] := by
  simp only [tt1_bitbang]
  rw [if_neg (by decide :
    ¬(([0, 2, 8, 24, 64, 160, 128, 129, 3, 8, 128, 124, 1] : List Nat).length = 0))]
  show tt1_decode [0, 2, 8, 24, 64, 160, 128, 129, 3, 8, 128, 124, 1] =
    Except.ok [0, 1, 2, 3, 4, 5, 6, 7, 8]
  decide

set_option maxRecDepth 16000 in
/-- C5 witness: segment 0 read with an environment whose FIFO always holds
`[0, 2, 8, 24, 64, 160, 128, 129, 3, 8, 128, 124, 1]` — the 9-bit packing
of the 9-byte block reply `[0, 1, 2, 3, 4, 5, 6, 7, 8]` plus its checksum —
so each single-block read succeeds with a 9-byte reply. -/
theorem C5_rseg_sixteen_single_block_reads_witness :
    (tt1_send_cmd_recv_rsp
      ⟨fun _ => [], fun _ => [0, 2, 8, 24, 64, 160, 128, 129, 3, 8, 128, 124, 1]⟩
      (0x10 :: 0x00 :: [])).2 =
      Except.ok (0x00 ::
        (((List.range 16).map (fun j => (0x00 >>> 4) * 16 + j)).map
          (fun blk => ((((fun _ : Nat => ([0, 1, 2, 3, 4, 5, 6, 7, 8] : List Nat))
            blk).drop 1).take 8))).flatten)
    ∧ (tt1_send_cmd_recv_rsp
      ⟨fun _ => [], fun _ => [0, 2, 8, 24, 64, 160, 128, 129, 3, 8, 128, 124, 1]⟩
      (0x10 :: 0x00 :: [])).1 =
      (((List.range 16).map (fun j => (0x00 >>> 4) * 16 + j)).map
        (fun blk => (tt1_bitbang
          ⟨fun _ => [], fun _ => [0, 2, 8, 24, 64, 160, 128, 129, 3, 8, 128, 124, 1]⟩
          (0x02 :: blk :: [])).1)).flatten
    ∧ (∀ blk, ((((fun _ : Nat => ([0, 1, 2, 3, 4, 5, 6, 7, 8] : List Nat))
        blk).drop 1).take 8).length = 8)
    ∧ ∀ d, ChipOp.inDataExchange d ∉
        (tt1_send_cmd_recv_rsp
          ⟨fun _ => [], fun _ => [0, 2, 8, 24, 64, 160, 128, 129, 3, 8, 128, 124, 1]⟩
          (0x10 :: 0x00 :: [])).1 :=
  C5_rseg_sixteen_single_block_reads
    ⟨fun _ => [], fun _ => [0, 2, 8, 24, 64, 160, 128, 129, 3, 8, 128, 124, 1]⟩
    0x00 [] (fun _ => [0, 1, 2, 3, 4, 5, 6, 7, 8])
    (fun blk => c5_env_fifo_ok blk)
    (fun _ => rfl)

/-- C4 (code bug): the decode loop of `in_auto_poll` is
`for i in data.pop(0): ...` — it iterates over the popped count byte itself,
an `int`, so Python raises `TypeError` for every nonempty reply and the
(type, length, data) decode described by the spec never runs; this theorem
evaluates the embedded code on all replies, in particular on the well-formed
single-entry reply `[0x01, 0x10, 0x02, 0xAA, 0xBB]`, where the claim expects
the successful result `[(0x10, [0xAA, 0xBB])]`. -/
theorem C4_in_auto_poll_decode_raises :
    (∀ (count : Nat) (rest : List Nat),
      in_auto_poll_decode (count :: rest) = Except.error Err.typeError)
    ∧ in_auto_poll_decode [0x01, 0x10, 0x02, 0xAA, 0xBB] = Except.error Err.typeError :=
  ⟨fun _ _ => rfl, rfl⟩

/-- C6: `set_serial_baudrate` encodes each of the 9 table rates as its
0-based index in the fixed ordered table as the single payload byte of
command 0x10 — in particular 921600 encodes index 7 — and any rate not in
the table fails with `ValueError` before any byte is sent. -/
theorem C6_set_serial_baudrate_encode (rate : Nat) :
    (∀ i, i < 9 → set_serial_baudrate (serial_baudrates.getD i 0) =
      Except.ok (0x10, [i]))
    ∧ (rate ∉ serial_baudrates →
      set_serial_baudrate rate = Except.error Err.valueError)
    ∧ set_serial_baudrate 921600 = Except.ok (0x10, [7]) := by
  refine ⟨by decide, ?_, by decide⟩
  intro hnot
  unfold set_serial_baudrate
  rw [listIndex_eq_none rate serial_baudrates hnot]

/-- C6 witness: 57600 encodes index 3, 921600 encodes index 7, and the
untabled rate 12345 fails. -/
theorem C6_set_serial_baudrate_encode_witness :
    set_serial_baudrate (serial_baudrates.getD 3 0) = Except.ok (0x10, [3])
    ∧ set_serial_baudrate (serial_baudrates.getD 7 0) = Except.ok (0x10, [7])
    ∧ set_serial_baudrate 12345 = Except.error Err.valueError :=
  ⟨(C6_set_serial_baudrate_encode 12345).1 3 (by decide),
   (C6_set_serial_baudrate_encode 12345).1 7 (by decide),
   (C6_set_serial_baudrate_encode 12345).2.1 (by decide)⟩

/-- C7: `tg_init_as_target` rejects with `AssertionError`, before building or
transmitting any request, every call whose mode byte has a reserved high bit
set (`mode & 0b11111000 != 0`), whose first technology parameter block is
not exactly 6 bytes, whose second is not exactly 18 bytes, or whose
identifier is not exactly 10 bytes. -/
theorem C7_tg_init_as_target_rejects (mode : Nat)
    (mifare_params felica_params nfcid3t general_bytes historical_bytes : List Nat)
    (hviol : mode &&& 0b11111000 ≠ 0 ∨ mifare_params.length ≠ 6 ∨
      felica_params.length ≠ 18 ∨ nfcid3t.length ≠ 10) :
    tg_init_as_target mode mifare_params felica_params nfcid3t general_bytes
      historical_bytes = Except.error Err.assertionError := by
  unfold tg_init_as_target
  by_cases h0 : mode &&& 0b11111000 ≠ 0
  · rw [if_pos h0]
  rw [if_neg h0]
  by_cases hm : mifare_params.length ≠ 6
  · rw [if_pos hm]
  rw [if_neg hm]
  by_cases hf : felica_params.length ≠ 18
  · rw [if_pos hf]
  rw [if_neg hf]
  have hid : nfcid3t.length ≠ 10 := by tauto
  rw [if_pos hid]

/-- C7 witness: 5- and 7-byte blocks where 6 bytes are required, and 17- and
19-byte blocks where 18 bytes are required, are all rejected. -/
theorem C7_tg_init_as_target_rejects_witness :
    tg_init_as_target 0 (List.replicate 5 0) (List.replicate 18 0)
      (List.replicate 10 0) [] [] = Except.error Err.assertionError
    ∧ tg_init_as_target 0 (List.replicate 7 0) (List.replicate 18 0)
      (List.replicate 10 0) [] [] = Except.error Err.assertionError
    ∧ tg_init_as_target 0 (List.replicate 6 0) (List.replicate 17 0)
      (List.replicate 10 0) [] [] = Except.error Err.assertionError
    ∧ tg_init_as_target 0 (List.replicate 6 0) (List.replicate 19 0)
      (List.replicate 10 0) [] [] = Except.error Err.assertionError :=
  ⟨C7_tg_init_as_target_rejects 0 (List.replicate 5 0) (List.replicate 18 0)
      (List.replicate 10 0) [] [] (by decide),
   C7_tg_init_as_target_rejects 0 (List.replicate 7 0) (List.replicate 18 0)
      (List.replicate 10 0) [] [] (by decide),
   C7_tg_init_as_target_rejects 0 (List.replicate 6 0) (List.replicate 17 0)
      (List.replicate 10 0) [] [] (by decide),
   C7_tg_init_as_target_rejects 0 (List.replicate 6 0) (List.replicate 19 0)
      (List.replicate 10 0) [] [] (by decide)⟩

/-- C8: the bitmask encoded by `power_down` sets exactly the bit whose
position the static ordered source list fixes for each named member (bit `i`
is set exactly when source `i` is a member of the collection, membership
tested by name, and no bit at position 8 or above is ever set), and the mask
only depends on membership — not on the order in which the members are
presented; the transmitted payload carries the mask followed by the
interrupt flag. -/
theorem C8_power_down_mask (wakeup_enable other : List String) (irq : Bool) :
    (∀ i, i < 8 →
      (wakeupMask wakeup_enable).testBit i =
        decide (power_down_wakeup_src.getD i "" ∈ wakeup_enable))
    ∧ wakeupMask wakeup_enable < 256
    ∧ ((∀ s, s ∈ wakeup_enable ↔ s ∈ other) →
        wakeupMask wakeup_enable = wakeupMask other)
    ∧ power_down_frame wakeup_enable irq =
        [wakeupMask wakeup_enable, if irq then 1 else 0] := by
  refine ⟨?_, wakeupMask_lt _, wakeupMask_membership_invariant _ other, rfl⟩
  intro i hi
  interval_cases i <;>
    (rw [wakeupMask_testBit]; simp [power_down_wakeup_src, List.getD])

/-- C8 witness: for the subset `["HSU", "SPI", "I2C"]` bit 4 (the HSU
position) is set, and the mask agrees with a reordering of the members. -/
theorem C8_power_down_mask_witness :
    (wakeupMask ["HSU", "SPI", "I2C"]).testBit 4 =
      decide (power_down_wakeup_src.getD 4 "" ∈ ["HSU", "SPI", "I2C"])
    ∧ wakeupMask ["HSU", "SPI", "I2C"] = wakeupMask ["I2C", "HSU", "SPI"] :=
  ⟨(C8_power_down_mask ["HSU", "SPI", "I2C"] ["I2C", "HSU", "SPI"] false).1 4
      (by decide),
   (C8_power_down_mask ["HSU", "SPI", "I2C"] ["I2C", "HSU", "SPI"] false).2.2.1
      (by intro s; simp only [List.mem_cons, List.not_mem_nil, or_false]; tauto)⟩

/-- C9: `listen_tta`, `listen_ttb` and `listen_ttf` raise
`NotImplementedError` immediately for every target and timeout — with an
empty operation trace, so no byte reaches the chip — while `listen_dep`
delegates to the external DEP listen routine with the caller-supplied target
and timeout. -/
theorem C9_listen_support (α β γ : Type) (target : α) (timeout : β)
    (listenDepImpl : α → β → γ) :
    listen_tta target timeout = ([], Except.error Err.notImplementedError)
    ∧ listen_ttb target timeout = ([], Except.error Err.notImplementedError)
    ∧ listen_ttf target timeout = ([], Except.error Err.notImplementedError)
    ∧ listen_dep listenDepImpl target timeout = listenDepImpl target timeout :=
  ⟨rfl, rfl, rfl, rfl⟩

/-- C10: for every wakeup collection drawn only from the seven documented
source names, the encoded bitmask has bit 2 clear — position 2 is the
reserved `"rfu"` slot of the static source list — and bit 2 is set exactly
when the literal name `"rfu"` is a member of the collection. -/
theorem C10_rfu_bit_reserved (wakeup_enable : List String) :
    ((∀ s ∈ wakeup_enable,
        s ∈ ["INT0", "INT1", "RF", "HSU", "SPI", "GPIO", "I2C"]) →
      (wakeupMask wakeup_enable).testBit 2 = false)
    ∧ ((wakeupMask wakeup_enable).testBit 2 = true ↔ "rfu" ∈ wakeup_enable) := by
  have hchar : (wakeupMask wakeup_enable).testBit 2 =
      decide ("rfu" ∈ wakeup_enable) := by
    simp [wakeupMask_testBit]
  constructor
  · intro h
    rw [hchar]
    simp only [decide_eq_false_iff_not]
    intro hrfu
    have := h "rfu" hrfu
    simp at this
  · rw [hchar]
    simp

/-- C10 witness: the documented subset `["I2C", "SPI", "HSU"]` leaves bit 2
clear, and adding the literal name `"rfu"` sets it. -/
theorem C10_rfu_bit_reserved_witness :
    (wakeupMask ["I2C", "SPI", "HSU"]).testBit 2 = false
    ∧ ((wakeupMask ["rfu", "HSU"]).testBit 2 = true ↔ "rfu" ∈ ["rfu", "HSU"]) :=
  ⟨(C10_rfu_bit_reserved ["I2C", "SPI", "HSU"]).1 (by decide),
   (C10_rfu_bit_reserved ["rfu", "HSU"]).2⟩

/-- C1 (amended): for every payload, if the FIFO delivers the 9-bit-per-byte
bit-reversed packing of payload-plus-checksum (with arbitrary parity bits),
the reconstruction step recovers exactly the original data-plus-checksum
bytes, checksum verification succeeds, the decode returns the data bytes
with the trailing two checksum bytes removed, and `_tt1_send_cmd_recv_rsp`
returns exactly those data bytes on the register-level path; and corrupting
any single DATA bit (one of the eight non-parity bits) of either packed
checksum byte makes verification fail with a `TransmissionError`.  (The
original claim said corrupting ANY single bit of the packed checksum fails;
that is false for the parity bits — see the counterexample.) -/
theorem C1_tt1_roundtrip (payload par : List Nat)
    (hb : ∀ x ∈ payload, x < 256) (hp : ∀ p ∈ par, p ≤ 1)
    (hl : par.length = (add_crc_b payload).length) :
    tt1_reconstruct (bitsToFifo (pack9 (add_crc_b payload) par)) = add_crc_b payload
    ∧ check_crc_b (add_crc_b payload) = true
    ∧ tt1_decode (bitsToFifo (pack9 (add_crc_b payload) par)) = Except.ok payload
    ∧ (∀ (env : Tt1Env) (b : Nat) (rest : List Nat),
        b ∉ [0x00, 0x01, 0x1A, 0x53, 0x72] → b ≠ 0x10 →
        env.fifo (add_crc_b (b :: rest)) =
          bitsToFifo (pack9 (add_crc_b payload) par) →
        (tt1_send_cmd_recv_rsp env (b :: rest)).2 = Except.ok payload)
    ∧ (∀ m t, (add_crc_b payload).length - 2 ≤ m →
        m < (add_crc_b payload).length → t < 8 →
        tt1_decode (bitsToFifo
          (flipBit (pack9 (add_crc_b payload) par) (9 * m + t))) =
          Except.error Err.transmissionError) := by
  refine ⟨tt1_reconstruct_pack _ par (add_crc_b_lt payload hb) hp hl,
    check_add_crc_b payload, tt1_decode_pack payload par hb hp hl, ?_, ?_⟩
  · intro env b rest h1 h2 hf
    rw [tt1_send_bypass env b rest h1 h2]
    simp only [tt1_bitbang]
    rw [hf]
    rw [if_neg (fun hzero => bitsToFifo_ne_nil _
      (pack9_bits_le _ par hp) (pack9_ne_nil _ par (add_crc_b_ne_nil payload) hl)
      (List.length_eq_zero.mp hzero))]
    exact tt1_decode_pack payload par hb hp hl
  · intro m t hm1 hm2 ht
    exact tt1_decode_flip payload par m t hb hp hl hm1 hm2 ht

set_option maxRecDepth 16000 in
/-- C1 counterexample: the claim says corrupting any single bit of the
packed checksum makes verification fail.  Take the payload `[0x54, 0x07]`
(checksum bytes `[0x6F, 0xCF]`, packed runs 2 and 3 of the stream, all
parity bits zero) and flip stream bit `9*3+8 = 35` — the parity bit of the
last packed checksum byte, a bit of the packed checksum region.  The packed
stream genuinely changes, yet reconstruction discards parity bits, so
verification still succeeds and the decode still returns `[0x54, 0x07]`. -/
theorem C1_parity_bit_flip_counterexample :
    flipBit (pack9 (add_crc_b [0x54, 0x07]) (List.replicate 4 0)) (9 * 3 + 8) ≠
      pack9 (add_crc_b [0x54, 0x07]) (List.replicate 4 0)
    ∧ tt1_decode (bitsToFifo (flipBit
        (pack9 (add_crc_b [0x54, 0x07]) (List.replicate 4 0)) (9 * 3 + 8))) =
      Except.ok [0x54, 0x07] := by
  constructor
  · decide
  · decide

set_option maxRecDepth 16000 in
/-- C1 witness: the round trip at the concrete payload `[0x54, 0x07]`, and a
flip of data bit 5 of the first packed checksum byte (run 2) failing with a
`TransmissionError`. -/
theorem C1_tt1_roundtrip_witness :
    tt1_decode (bitsToFifo (pack9 (add_crc_b [0x54, 0x07])
      (List.replicate 4 0))) = Except.ok [0x54, 0x07]
    ∧ tt1_decode (bitsToFifo (flipBit
        (pack9 (add_crc_b [0x54, 0x07]) (List.replicate 4 0)) (9 * 2 + 5))) =
      Except.error Err.transmissionError :=
  ⟨(C1_tt1_roundtrip [0x54, 0x07] (List.replicate 4 0)
      (by decide) (by decide) (by decide)).2.2.1,
   (C1_tt1_roundtrip [0x54, 0x07] (List.replicate 4 0)
      (by decide) (by decide) (by decide)).2.2.2.2 2 5
      (by decide) (by decide) (by decide)⟩

end Pn532
